import Mathlib

/-!
Shallow embedding of scripts/extract_common_compounds_db.py.

The script copies a subset of a SQLite database: the compounds whose
database_name equals "Common Compounds", their dependent spectral rows,
the referenced lookup rows, and the full solar_spectra table, into a
freshly created destination database.  Tables are modelled as Lean lists
of rows; the SQL statements of the script become pure functions on a
destination-database value, sequenced as a statement script executed by
a small connection semantics (DDL statements autocommit, DML statements
run inside the implicit transaction that is committed once at the end).
-/

set_option maxHeartbeats 1000000

/-- Target selection name, a configuration constant of the script (line 21). -/
def TARGET_DATABASE_NAME : String := "Common Compounds"

/-- Row of the compounds table: the columns the script inspects (id,
database_name, database_id, category_id), plus the remaining column
payload, opaque to the script. -/
structure Compound where
  id : String
  database_name : String
  database_id : Option String
  category_id : Option String
  rest : String
deriving DecidableEq

/-- Row of the spectra_databases table: id (primary key), name, payload. -/
structure SpectraDatabase where
  id : String
  name : String
  rest : String
deriving DecidableEq

/-- Row of the common_compound_categories table: id (primary key), payload. -/
structure CompoundCategory where
  id : String
  rest : String
deriving DecidableEq

/-- Row of the solar_spectra table; key models the value of the table's
primary key, rest the remaining payload. -/
structure SolarRow where
  key : String
  rest : String
deriving DecidableEq

/-- Row of one of the six compound-keyed dependent tables. -/
structure DepRow where
  compound_id : String
  rest : String
deriving DecidableEq

/-- Row of the sqlite_master catalog of the source database. -/
structure MasterRow where
  type : String
  name : String
  tbl_name : String
  sql : Option String
deriving DecidableEq

/-- Source database: its catalog plus the ten tables the script touches. -/
structure SourceDB where
  sqliteMaster : List MasterRow
  compounds : List Compound
  spectra_databases : List SpectraDatabase
  common_compound_categories : List CompoundCategory
  solar_spectra : List SolarRow
  compounds_absorptions : List DepRow
  compounds_emissions : List DepRow
  compound_absorption_normalized_status : List DepRow
  compound_emission_normalized_status : List DepRow
  compounds_absorptions_backup : List DepRow
  compounds_emissions_backup : List DepRow
deriving DecidableEq

/-- Destination database: the DDL statements applied so far plus the ten
tables the script populates. -/
structure DB where
  ddlApplied : List String
  compounds : List Compound
  spectra_databases : List SpectraDatabase
  common_compound_categories : List CompoundCategory
  solar_spectra : List SolarRow
  compounds_absorptions : List DepRow
  compounds_emissions : List DepRow
  compound_absorption_normalized_status : List DepRow
  compound_emission_normalized_status : List DepRow
  compounds_absorptions_backup : List DepRow
  compounds_emissions_backup : List DepRow
deriving DecidableEq

/-- Freshly created destination database file: no tables, no data. -/
def emptyDB : DB :=
  { ddlApplied := []
    compounds := []
    spectra_databases := []
    common_compound_categories := []
    solar_spectra := []
    compounds_absorptions := []
    compounds_emissions := []
    compound_absorption_normalized_status := []
    compound_emission_normalized_status := []
    compounds_absorptions_backup := []
    compounds_emissions_backup := [] }

/-- INSERT OR IGNORE semantics: each row is appended unless a row with the
same key value is already present in the destination table. -/
def insertOrIgnoreBy {α : Type} (key : α → String) (dest rows : List α) : List α :=
  rows.foldl (fun d r => if (d.map key).contains (key r) then d else d ++ [r]) dest

/-- Plain INSERT semantics: each row is appended; a key conflict with the
current destination content makes the whole statement fail. -/
def strictInsertBy {α : Type} (key : α → String) (dest : List α) : List α → Option (List α)
  | [] => some dest
  | r :: rs => if (dest.map key).contains (key r) then none else strictInsertBy key (dest ++ [r]) rs

/-- Line 79: SELECT id FROM src.compounds WHERE database_name = ?. -/
def selectedIds (src : SourceDB) : List String :=
  (src.compounds.filter (fun c => c.database_name == TARGET_DATABASE_NAME)).map (fun c => c.id)

/-- Line 33: SELECT sql FROM sqlite_master WHERE type = table AND name = ?,
first row, its sql column. -/
def get_schema (src : SourceDB) (table : String) : Option String :=
  ((src.sqliteMaster.filter (fun r => r.type == "table" && r.name == table)).head?).bind
    (fun r => r.sql)

/-- Line 43: SELECT sql FROM sqlite_master WHERE type = index AND
tbl_name = ? AND sql IS NOT NULL. -/
def get_index_sql (src : SourceDB) (table : String) : List String :=
  (src.sqliteMaster.filter
      (fun r => r.type == "index" && r.tbl_name == table && r.sql.isSome)).filterMap
    (fun r => r.sql)

/-- Line 52, copy_table_schema: the DDL statements executed against the
destination for one table; none if the table is absent from the source
catalog or its sql entry is falsy. -/
def ddlStringsFor (src : SourceDB) (table : String) : List String :=
  match get_schema src table with
  | none => []
  | some s => if s = "" then [] else s :: get_index_sql src table

/-- Line 93: the fixed table list, in source order. -/
def tables_to_copy : List String :=
  ["spectra_databases",
   "common_compound_categories",
   "solar_spectra",
   "compounds_absorptions_backup",
   "compounds_absorptions",
   "compound_absorption_normalized_status",
   "compounds_emissions_backup",
   "compounds_emissions",
   "compound_emission_normalized_status",
   "compounds"]

/-- Lines 105 and 106: all DDL statements executed, in order. -/
def ddlStrings (src : SourceDB) : List String :=
  (tables_to_copy.map (ddlStringsFor src)).flatten

/-- Line 112: INSERT OR IGNORE INTO spectra_databases SELECT * FROM
src.spectra_databases WHERE name = ?. -/
def insSpectraByName (src : SourceDB) (d : DB) : DB :=
  { d with spectra_databases :=
      (insertOrIgnoreBy (fun s => s.id) d.spectra_databases
        (src.spectra_databases.filter (fun s => s.name == TARGET_DATABASE_NAME))) }

/-- Line 116: SELECT DISTINCT database_id FROM src.compounds WHERE
database_name = ? AND database_id IS NOT NULL. -/
def dids (src : SourceDB) : List String :=
  ((src.compounds.filter
      (fun c => c.database_name == TARGET_DATABASE_NAME && c.database_id.isSome)).filterMap
    (fun c => c.database_id)).dedup

/-- Effect on the spectra_databases table of one iteration of the loop at
line 120: INSERT OR IGNORE ... WHERE id = ?. -/
def spectraIdStep (src : SourceDB) (acc : List SpectraDatabase) (did : String) :
    List SpectraDatabase :=
  insertOrIgnoreBy (fun s => s.id) acc (src.spectra_databases.filter (fun s => s.id == did))

/-- Line 121: one iteration of the loop over the distinct database ids. -/
def insSpectraById (src : SourceDB) (did : String) (d : DB) : DB :=
  { d with spectra_databases := spectraIdStep src d.spectra_databases did }

/-- Line 127: the rows produced by SELECT DISTINCT c.* FROM
src.common_compound_categories c INNER JOIN src.compounds comp ON
comp.category_id = c.id WHERE comp.id IN (selected ids). -/
def catJoin (src : SourceDB) (ids : List String) : List CompoundCategory :=
  (src.common_compound_categories.filter
      (fun k => src.compounds.any
        (fun comp => comp.category_id == some k.id && ids.contains comp.id))).dedup

/-- Line 127: INSERT OR IGNORE INTO common_compound_categories of the join. -/
def insCategories (src : SourceDB) (ids : List String) (d : DB) : DB :=
  { d with common_compound_categories :=
      insertOrIgnoreBy (fun k => k.id) d.common_compound_categories (catJoin src ids) }

/-- Line 138: INSERT OR IGNORE INTO solar_spectra SELECT * FROM
src.solar_spectra. -/
def insSolar (src : SourceDB) (d : DB) : DB :=
  { d with solar_spectra :=
      insertOrIgnoreBy (fun r => r.key) d.solar_spectra src.solar_spectra }

/-- Line 141: the rows selected by SELECT * FROM src.compounds WHERE id IN
(selected ids). -/
def selCompounds (src : SourceDB) (ids : List String) : List Compound :=
  src.compounds.filter (fun c => ids.contains c.id)

/-- Line 141: strict INSERT INTO compounds of the selected rows; fails on a
primary-key conflict. -/
def insCompoundsF (src : SourceDB) (ids : List String) (d : DB) : Option DB :=
  (strictInsertBy (fun c => c.id) d.compounds (selCompounds src ids)).map
    (fun l => { d with compounds := l })

/-- Line 153, iteration for compounds_absorptions: strict INSERT of the rows
with compound_id in the selected id set.  The table's own key constraints
are schema-specific and cannot conflict inside the fresh destination, so
the statement is modelled as the append of the selected rows. -/
def insAbs (src : SourceDB) (ids : List String) (d : DB) : DB :=
  { d with compounds_absorptions :=
      d.compounds_absorptions ++
        src.compounds_absorptions.filter (fun r => ids.contains r.compound_id) }

/-- Line 153, iteration for compounds_emissions. -/
def insEmis (src : SourceDB) (ids : List String) (d : DB) : DB :=
  { d with compounds_emissions :=
      d.compounds_emissions ++
        src.compounds_emissions.filter (fun r => ids.contains r.compound_id) }

/-- Line 153, iteration for compound_absorption_normalized_status. -/
def insAbsN (src : SourceDB) (ids : List String) (d : DB) : DB :=
  { d with compound_absorption_normalized_status :=
      (d.compound_absorption_normalized_status ++
        src.compound_absorption_normalized_status.filter
          (fun r => ids.contains r.compound_id)) }

/-- Line 153, iteration for compound_emission_normalized_status. -/
def insEmisN (src : SourceDB) (ids : List String) (d : DB) : DB :=
  { d with compound_emission_normalized_status :=
      (d.compound_emission_normalized_status ++
        src.compound_emission_normalized_status.filter
          (fun r => ids.contains r.compound_id)) }

/-- Line 158: strict INSERT INTO compounds_absorptions_backup. -/
def insAbsB (src : SourceDB) (ids : List String) (d : DB) : DB :=
  { d with compounds_absorptions_backup :=
      d.compounds_absorptions_backup ++
        src.compounds_absorptions_backup.filter (fun r => ids.contains r.compound_id) }

/-- Line 162: strict INSERT INTO compounds_emissions_backup. -/
def insEmisB (src : SourceDB) (ids : List String) (d : DB) : DB :=
  { d with compounds_emissions_backup :=
      d.compounds_emissions_backup ++
        src.compounds_emissions_backup.filter (fun r => ids.contains r.compound_id) }

/-- Statement executed against the destination connection: a DDL catalog
statement (applied verbatim, autocommitting), a DML statement (runs inside
the implicit transaction, may fail), or the final commit (line 167). -/
inductive Stmt where
  | ddl (sql : String)
  | dml (f : DB → Option DB)
  | commit

/-- DML statement that always succeeds, such as INSERT OR IGNORE or an
insert that cannot conflict. -/
def wrap (g : DB → DB) : Stmt := Stmt.dml (fun d => some (g d))

/-- Reference-data statements, in source order: spectra_databases by name
(line 112), spectra_databases by each distinct database_id (line 120),
categories (line 127), solar_spectra (line 138). -/
def refFns (src : SourceDB) (ids : List String) : List (DB → DB) :=
  insSpectraByName src ::
    ((dids src).map (insSpectraById src) ++ [insCategories src ids, insSolar src])

/-- Dependent-table statements, in source order (lines 146 to 165). -/
def depFns (src : SourceDB) (ids : List String) : List (DB → DB) :=
  [insAbs src ids, insEmis src ids, insAbsN src ids, insEmisN src ids,
   insAbsB src ids, insEmisB src ids]

/-- Lines 109 to 165: all data-copy statements, in source order. -/
def dataStmts (src : SourceDB) (ids : List String) : List Stmt :=
  (refFns src ids).map wrap ++ Stmt.dml (insCompoundsF src ids) :: (depFns src ids).map wrap

/-- Lines 105 to 167: the full statement script against the destination
connection: schema DDL, then the data copies, then the single commit. -/
def script (src : SourceDB) : List Stmt :=
  (ddlStrings src).map Stmt.ddl ++ dataStmts src (selectedIds src) ++ [Stmt.commit]

/-- Destination connection state: the committed file content, the pending
(in-transaction) content, and whether an implicit transaction is open. -/
structure Conn where
  committed : DB
  pending : DB
  inTxn : Bool

/-- Record a DDL statement in the destination content. -/
def appendDdl (sql : String) (d : DB) : DB :=
  { d with ddlApplied := d.ddlApplied ++ [sql] }

/-- Execute one statement: DDL autocommits when no transaction is open
(Python sqlite3 opens the implicit transaction at the first DML); DML
mutates only the pending state; commit publishes the pending state. -/
def execStmt (c : Conn) : Stmt → Option Conn
  | Stmt.ddl s =>
      if c.inTxn then some ⟨c.committed, appendDdl s c.pending, true⟩
      else some ⟨appendDdl s c.pending, appendDdl s c.pending, false⟩
  | Stmt.dml f =>
      match f c.pending with
      | some d => some ⟨c.committed, d, true⟩
      | none => none
  | Stmt.commit => some ⟨c.pending, c.pending, false⟩

/-- Execute a statement list; on the first failing statement, stop and
report failure, keeping the connection state reached so far (closing the
connection then discards the uncommitted pending content). -/
def execList (c : Conn) : List Stmt → Conn × Bool
  | [] => (c, true)
  | s :: rest =>
      match execStmt c s with
      | some c2 => execList c2 rest
      | none => (c, false)

/-- Connection state right after creating the fresh destination file. -/
def initConn : Conn := ⟨emptyDB, emptyDB, false⟩

/-- Filesystem state the script interacts with: whether the source file
exists, the source database content, and the destination file content
(none when no file is present). -/
structure FS where
  sourceExists : Bool
  source : SourceDB
  dest : Option DB
deriving DecidableEq

/-- Exit condition of one invocation of main. -/
inductive Outcome where
  | missingSource
  | emptySelection
  | ok
  | failed
deriving DecidableEq

/-- Lines 62 to 181, main: missing source returns before touching the
destination; otherwise any stale destination file is removed and a fresh
one created; an empty selection returns with the fresh empty file in
place; otherwise the statement script runs and the file holds whatever
content was committed when the connection is closed. -/
def run (fs : FS) : FS × Outcome :=
  if fs.sourceExists then
    if selectedIds fs.source = [] then
      ({ fs with dest := some emptyDB }, Outcome.emptySelection)
    else if (execList initConn (script fs.source)).2 then
      ({ fs with dest := some (execList initConn (script fs.source)).1.committed }, Outcome.ok)
    else
      ({ fs with dest := some (execList initConn (script fs.source)).1.committed },
        Outcome.failed)
  else (fs, Outcome.missingSource)

/-- Final spectra_databases content of a successful run: the by-name
insert followed by the by-database_id loop. -/
def spectraFold (src : SourceDB) : List SpectraDatabase :=
  (dids src).foldl (spectraIdStep src)
    (insertOrIgnoreBy (fun s => s.id) []
      (src.spectra_databases.filter (fun s => s.name == TARGET_DATABASE_NAME)))

/-- Destination content committed by a successful run. -/
def extractDB (src : SourceDB) : DB :=
  { ddlApplied := ddlStrings src
    compounds := selCompounds src (selectedIds src)
    spectra_databases := spectraFold src
    common_compound_categories :=
      insertOrIgnoreBy (fun k => k.id) [] (catJoin src (selectedIds src))
    solar_spectra := insertOrIgnoreBy (fun r => r.key) [] src.solar_spectra
    compounds_absorptions :=
      src.compounds_absorptions.filter (fun r => (selectedIds src).contains r.compound_id)
    compounds_emissions :=
      src.compounds_emissions.filter (fun r => (selectedIds src).contains r.compound_id)
    compound_absorption_normalized_status :=
      (src.compound_absorption_normalized_status.filter
        (fun r => (selectedIds src).contains r.compound_id))
    compound_emission_normalized_status :=
      (src.compound_emission_normalized_status.filter
        (fun r => (selectedIds src).contains r.compound_id))
    compounds_absorptions_backup :=
      (src.compounds_absorptions_backup.filter
        (fun r => (selectedIds src).contains r.compound_id))
    compounds_emissions_backup :=
      (src.compounds_emissions_backup.filter
        (fun r => (selectedIds src).contains r.compound_id)) }

/-- Whether the strict compounds insert of the run succeeds. -/
def insertOk (src : SourceDB) : Bool :=
  (strictInsertBy (fun c => c.id) [] (selCompounds src (selectedIds src))).isSome

/-- Whether every data table of a destination database is empty. -/
def dataTablesEmpty (d : DB) : Bool :=
  d.compounds.isEmpty && d.spectra_databases.isEmpty &&
    d.common_compound_categories.isEmpty && d.solar_spectra.isEmpty &&
    d.compounds_absorptions.isEmpty && d.compounds_emissions.isEmpty &&
    d.compound_absorption_normalized_status.isEmpty &&
    d.compound_emission_normalized_status.isEmpty &&
    d.compounds_absorptions_backup.isEmpty && d.compounds_emissions_backup.isEmpty

/-- Whether a statement is the commit statement. -/
def isCommit : Stmt → Bool
  | Stmt.commit => true
  | _ => false

/-- Destination content once the schema-copy phase has run: the DDL
statements are committed (they autocommit), no data yet. -/
def schemaDB (src : SourceDB) : DB :=
  { emptyDB with ddlApplied := ddlStrings src }

/-- Pending destination content once the reference-data statements have
run. -/
def refDB (src : SourceDB) (ids : List String) : DB :=
  { emptyDB with
    ddlApplied := ddlStrings src
    spectra_databases := spectraFold src
    common_compound_categories := insertOrIgnoreBy (fun k => k.id) [] (catJoin src ids)
    solar_spectra := insertOrIgnoreBy (fun r => r.key) [] src.solar_spectra }

/-- Every statement of the script before the final commit. -/
def scriptBody (src : SourceDB) : List Stmt :=
  (ddlStrings src).map Stmt.ddl ++ dataStmts src (selectedIds src)

/-- Concrete source database used to instantiate the theorems: one selected
compound (with category and database references resolvable), one unselected
compound, and dependent rows for both. -/
def srcW : SourceDB :=
  { sqliteMaster := [⟨"table", "compounds", "compounds", some "CREATE TABLE compounds"⟩],
    compounds := [⟨"c1", "Common Compounds", some "d1", some "k1", "x"⟩,
                  ⟨"c2", "Other", none, none, "y"⟩],
    spectra_databases := [⟨"d1", "Common Compounds", "sd"⟩],
    common_compound_categories := [⟨"k1", "cat"⟩],
    solar_spectra := [⟨"s1", "sun"⟩],
    compounds_absorptions := [⟨"c1", "a"⟩, ⟨"c2", "b"⟩],
    compounds_emissions := [⟨"c1", "e"⟩],
    compound_absorption_normalized_status := [],
    compound_emission_normalized_status := [],
    compounds_absorptions_backup := [],
    compounds_emissions_backup := [] }

/-- Filesystem state with the concrete source present and no destination. -/
def fsW : FS := ⟨true, srcW, none⟩

/-- Concrete source whose strict compounds insert conflicts: two selected
rows share the same primary key. -/
def srcF : SourceDB :=
  { sqliteMaster := [],
    compounds := [⟨"x", "Common Compounds", none, none, "a"⟩,
                  ⟨"x", "Common Compounds", none, none, "b"⟩],
    spectra_databases := [],
    common_compound_categories := [],
    solar_spectra := [],
    compounds_absorptions := [],
    compounds_emissions := [],
    compound_absorption_normalized_status := [],
    compound_emission_normalized_status := [],
    compounds_absorptions_backup := [],
    compounds_emissions_backup := [] }

/-- Filesystem state whose run fails mid-script. -/
def fsF : FS := ⟨true, srcF, none⟩

/-- Concrete source with a selected compound whose category_id refers to a
category that does not exist in the source. -/
def srcC : SourceDB :=
  { sqliteMaster := [],
    compounds := [⟨"c1", "Common Compounds", none, some "k1", "x"⟩],
    spectra_databases := [],
    common_compound_categories := [],
    solar_spectra := [],
    compounds_absorptions := [],
    compounds_emissions := [],
    compound_absorption_normalized_status := [],
    compound_emission_normalized_status := [],
    compounds_absorptions_backup := [],
    compounds_emissions_backup := [] }

/-- Filesystem state for the dangling-category source. -/
def fsC : FS := ⟨true, srcC, none⟩

/-- Concrete source with no compound named by the selection. -/
def srcE : SourceDB :=
  { sqliteMaster := [],
    compounds := [⟨"c9", "Other", none, none, "z"⟩],
    spectra_databases := [],
    common_compound_categories := [],
    solar_spectra := [],
    compounds_absorptions := [],
    compounds_emissions := [],
    compound_absorption_normalized_status := [],
    compound_emission_normalized_status := [],
    compounds_absorptions_backup := [],
    compounds_emissions_backup := [] }

/-- Filesystem state with an empty selection and a pre-existing destination
file that the run must replace. -/
def fsE : FS := ⟨true, srcE, some (extractDB srcW)⟩

/-- Filesystem state whose source file is absent while a destination file
already exists. -/
def fsM : FS := ⟨false, srcW, some (extractDB srcW)⟩

/-- Executing an appended statement list after a successful prefix continues
from the reached connection state. -/
theorem execList_append_ok (l1 : List Stmt) :
    ∀ (c c1 : Conn), execList c l1 = (c1, true) →
      ∀ l2, execList c (l1 ++ l2) = execList c1 l2 := by
  induction l1 with
  | nil =>
      intro c c1 h l2
      simp only [execList] at h
      cases h
      simp
  | cons s rest ih =>
      intro c c1 h l2
      simp only [execList] at h ⊢
      cases hs : execStmt c s with
      | some c2 =>
          rw [hs] at h
          exact ih c2 c1 h l2
      | none =>
          rw [hs] at h
          cases h

/-- Executing an appended statement list after a failing prefix fails with
the same connection state. -/
theorem execList_append_fail (l1 : List Stmt) :
    ∀ (c c1 : Conn), execList c l1 = (c1, false) →
      ∀ l2, execList c (l1 ++ l2) = (c1, false) := by
  induction l1 with
  | nil =>
      intro c c1 h l2
      simp only [execList] at h
      simp at h
  | cons s rest ih =>
      intro c c1 h l2
      simp only [execList] at h ⊢
      cases hs : execStmt c s with
      | some c2 =>
          rw [hs] at h
          exact ih c2 c1 h l2
      | none =>
          rw [hs] at h
          exact h

/-- Running DDL statements from a connection with no open transaction
autocommits each one: committed and pending stay equal and accumulate the
statements. -/
theorem execList_ddls (ds : List String) :
    ∀ p : DB, execList ⟨p, p, false⟩ (ds.map Stmt.ddl) =
      (⟨{ p with ddlApplied := p.ddlApplied ++ ds },
        { p with ddlApplied := p.ddlApplied ++ ds }, false⟩, true) := by
  induction ds with
  | nil => intro p; simp [execList]
  | cons s rest ih =>
      intro p
      rw [List.map_cons]
      rw [show execList ⟨p, p, false⟩ (Stmt.ddl s :: rest.map Stmt.ddl) =
            execList ⟨appendDdl s p, appendDdl s p, false⟩ (rest.map Stmt.ddl) from by
          simp [execList, execStmt]]
      rw [ih (appendDdl s p)]
      simp [appendDdl]

/-- Running always-succeeding DML statements folds their effects over the
pending state and never touches the committed state. -/
theorem execList_wraps (gs : List (DB → DB)) :
    ∀ c : Conn, execList c (gs.map wrap) =
      (⟨c.committed, gs.foldl (fun d g => g d) c.pending,
        if gs.isEmpty then c.inTxn else true⟩, true) := by
  induction gs with
  | nil => intro c; simp [execList]
  | cons g rest ih =>
      intro c
      simp only [List.map_cons, execList, wrap, execStmt]
      rw [ih ⟨c.committed, g c.pending, true⟩]
      simp [List.foldl_cons]

/-- Strict insertion, when it succeeds, appends exactly the requested rows. -/
theorem strictInsertBy_success {α : Type} (key : α → String) (rows : List α) :
    ∀ (dest l : List α), strictInsertBy key dest rows = some l → l = dest ++ rows := by
  induction rows with
  | nil =>
      intro dest l h
      simp only [strictInsertBy] at h
      cases h
      simp
  | cons r rs ih =>
      intro dest l h
      simp only [strictInsertBy] at h
      by_cases hc : ((dest.map key).contains (key r)) = true
      · rw [if_pos hc] at h; cases h
      · rw [if_neg hc] at h
        have := ih (dest ++ [r]) l h
        simpa using this

/-- Strict insertion succeeds only when the inserted rows have pairwise
distinct keys, none of which is already present in the destination. -/
theorem strictInsertBy_sound {α : Type} (key : α → String) (rows : List α) :
    ∀ (dest l : List α), strictInsertBy key dest rows = some l →
      (rows.map key).Nodup ∧ ∀ r ∈ rows, key r ∉ dest.map key := by
  induction rows with
  | nil => intro dest l _; simp
  | cons r rs ih =>
      intro dest l h
      simp only [strictInsertBy] at h
      by_cases hc : ((dest.map key).contains (key r)) = true
      · rw [if_pos hc] at h; cases h
      · rw [if_neg hc] at h
        obtain ⟨hnd, hni⟩ := ih (dest ++ [r]) l h
        have hr : key r ∉ dest.map key := by
          intro hmem
          exact hc (List.elem_iff.mpr hmem)
        refine ⟨?_, ?_⟩
        · refine List.Nodup.cons ?_ hnd
          intro hmem
          obtain ⟨x, hx, hkx⟩ := List.mem_map.mp hmem
          exact hni x hx (by rw [List.map_append, hkx]; simp)
        · intro x hx hmem
          rcases List.mem_cons.mp hx with rfl | hx2
          · exact hr hmem
          · exact hni x hx2 (by rw [List.map_append]; exact List.mem_append_left _ hmem)

/-- Unfolding of INSERT OR IGNORE by one row. -/
theorem insertOrIgnoreBy_cons {α : Type} (key : α → String) (dest : List α) (r : α)
    (rs : List α) :
    insertOrIgnoreBy key dest (r :: rs) =
      insertOrIgnoreBy key (if (dest.map key).contains (key r) then dest else dest ++ [r]) rs :=
  rfl

/-- INSERT OR IGNORE never removes rows already present. -/
theorem mem_insertOrIgnoreBy_of_mem {α : Type} (key : α → String) (rows : List α) :
    ∀ (dest : List α) (x : α), x ∈ dest → x ∈ insertOrIgnoreBy key dest rows := by
  induction rows with
  | nil => intro dest x hx; simpa [insertOrIgnoreBy] using hx
  | cons r rs ih =>
      intro dest x hx
      rw [insertOrIgnoreBy_cons]
      by_cases hc : ((dest.map key).contains (key r)) = true
      · rw [if_pos hc]; exact ih dest x hx
      · rw [if_neg hc]; exact ih (dest ++ [r]) x (List.mem_append_left _ hx)

/-- After INSERT OR IGNORE, each requested key value is represented in the
destination table. -/
theorem exists_key_insertOrIgnoreBy {α : Type} (key : α → String) (rows : List α) :
    ∀ (dest : List α) (r : α), r ∈ rows →
      ∃ x ∈ insertOrIgnoreBy key dest rows, key x = key r := by
  induction rows with
  | nil => intro dest r hr; cases hr
  | cons a rs ih =>
      intro dest r hr
      rw [insertOrIgnoreBy_cons]
      rcases List.mem_cons.mp hr with rfl | hr2
      · by_cases hc : ((dest.map key).contains (key r)) = true
        · rw [if_pos hc]
          have hmem : key r ∈ dest.map key := List.elem_iff.mp hc
          obtain ⟨x, hx, hkx⟩ := List.mem_map.mp hmem
          exact ⟨x, mem_insertOrIgnoreBy_of_mem key rs dest x hx, hkx⟩
        · rw [if_neg hc]
          exact ⟨r, mem_insertOrIgnoreBy_of_mem key rs _ r (by simp), rfl⟩
      · by_cases hc : ((dest.map key).contains (key a)) = true
        · rw [if_pos hc]; exact ih dest r hr2
        · rw [if_neg hc]; exact ih (dest ++ [a]) r hr2

/-- When the inserted rows have pairwise distinct keys not present in the
destination, INSERT OR IGNORE ignores nothing: it appends all the rows. -/
theorem insertOrIgnoreBy_of_nodup {α : Type} (key : α → String) (rows : List α) :
    ∀ dest : List α, (rows.map key).Nodup →
      (∀ r ∈ rows, key r ∉ dest.map key) →
      insertOrIgnoreBy key dest rows = dest ++ rows := by
  induction rows with
  | nil => intro dest _ _; simp [insertOrIgnoreBy]
  | cons r rs ih =>
      intro dest hnd hni
      rw [insertOrIgnoreBy_cons]
      have hc : ((dest.map key).contains (key r)) = false := by
        rw [Bool.eq_false_iff]
        intro hc
        exact hni r (by simp) (List.elem_iff.mp hc)
      rw [hc]
      simp only [Bool.false_eq_true, if_false]
      rw [ih (dest ++ [r]) (List.Nodup.of_cons hnd)]
      · simp
      · intro x hx hmem
        rw [List.map_append] at hmem
        rcases List.mem_append.mp hmem with h1 | h2
        · exact hni x (List.mem_cons_of_mem r hx) h1
        · have hkx : key x = key r := by simpa using h2
          have : key r ∉ rs.map key := (List.nodup_cons.mp hnd).1
          exact this (hkx ▸ List.mem_map_of_mem key hx)

/-- The loop over distinct database ids only changes the spectra_databases
table, by folding the per-id INSERT OR IGNORE over it. -/
theorem didsFold_eq (src : SourceDB) (ds : List String) :
    ∀ d : DB, ds.foldl (fun d did => insSpectraById src did d) d =
      { d with spectra_databases := ds.foldl (spectraIdStep src) d.spectra_databases } := by
  induction ds with
  | nil => intro d; rfl
  | cons x xs ih =>
      intro d
      simp only [List.foldl_cons]
      rw [ih]
      rfl

/-- Folding the reference-data statements over the schema-only destination
yields the reference tables of the final content. -/
theorem refFold_eq (src : SourceDB) (ids : List String) :
    (refFns src ids).foldl (fun d g => g d) (schemaDB src) = refDB src ids := by
  simp only [refFns, List.foldl_cons, List.foldl_append, List.foldl_map]
  rw [didsFold_eq]
  rfl

/-- Executing the schema-copy phase autocommits the DDL statements. -/
theorem exec_ddl_phase (src : SourceDB) :
    execList initConn ((ddlStrings src).map Stmt.ddl) =
      (⟨schemaDB src, schemaDB src, false⟩, true) := by
  have h := execList_ddls (ddlStrings src) emptyDB
  simpa [initConn, schemaDB, emptyDB] using h

/-- Executing the reference-data phase from the schema-only state leaves the
committed content untouched and produces the reference tables in the
pending content. -/
theorem exec_ref_phase (src : SourceDB) (ids : List String) :
    execList ⟨schemaDB src, schemaDB src, false⟩ ((refFns src ids).map wrap) =
      (⟨schemaDB src, refDB src ids, true⟩, true) := by
  rw [execList_wraps]
  rw [refFold_eq]
  simp [refFns]

/-- When the strict compounds insert succeeds, executing the full script
commits exactly the extracted destination content. -/
theorem script_exec (src : SourceDB) (h : insertOk src = true) :
    execList initConn (script src) =
      (⟨extractDB src, extractDB src, false⟩, true) := by
  obtain ⟨l, hl⟩ := Option.isSome_iff_exists.mp h
  have hleq : l = selCompounds src (selectedIds src) := by
    simpa using strictInsertBy_success (fun c => c.id) (selCompounds src (selectedIds src)) [] l hl
  subst hleq
  have h1 := exec_ddl_phase src
  have h2 := exec_ref_phase src (selectedIds src)
  have h3 : execStmt ⟨schemaDB src, refDB src (selectedIds src), true⟩
      (Stmt.dml (insCompoundsF src (selectedIds src))) =
      some ⟨schemaDB src,
        { refDB src (selectedIds src) with compounds := selCompounds src (selectedIds src) },
        true⟩ := by
    have hco : (refDB src (selectedIds src)).compounds = [] := rfl
    simp [execStmt, insCompoundsF, hco, hl]
  rw [show script src = (ddlStrings src).map Stmt.ddl ++
      ((refFns src (selectedIds src)).map wrap ++
        (Stmt.dml (insCompoundsF src (selectedIds src)) ::
          ((depFns src (selectedIds src)).map wrap ++ [Stmt.commit]))) from by
    simp [script, dataStmts, List.append_assoc, List.cons_append]]
  rw [execList_append_ok _ _ _ h1]
  rw [execList_append_ok _ _ _ h2]
  rw [show execList ⟨schemaDB src, refDB src (selectedIds src), true⟩
      (Stmt.dml (insCompoundsF src (selectedIds src)) ::
        ((depFns src (selectedIds src)).map wrap ++ [Stmt.commit])) =
      execList ⟨schemaDB src,
        { refDB src (selectedIds src) with compounds := selCompounds src (selectedIds src) },
        true⟩ ((depFns src (selectedIds src)).map wrap ++ [Stmt.commit]) from by
    simp [execList, h3]]
  rw [execList_append_ok _ _ _ (execList_wraps (depFns src (selectedIds src)) _)]
  rfl

/-- If the full script runs to the end successfully, the strict compounds
insert must have succeeded. -/
theorem exec_flag_insertOk (src : SourceDB)
    (h : (execList initConn (script src)).2 = true) : insertOk src = true := by
  cases hopt : strictInsertBy (fun c => c.id) [] (selCompounds src (selectedIds src)) with
  | some l => simp [insertOk, hopt]
  | none =>
      exfalso
      have h1 := exec_ddl_phase src
      have h2 := exec_ref_phase src (selectedIds src)
      have h3 : execStmt ⟨schemaDB src, refDB src (selectedIds src), true⟩
          (Stmt.dml (insCompoundsF src (selectedIds src))) = none := by
        have hco : (refDB src (selectedIds src)).compounds = [] := rfl
        simp [execStmt, insCompoundsF, hco, hopt]
      rw [show script src = (ddlStrings src).map Stmt.ddl ++
          ((refFns src (selectedIds src)).map wrap ++
            (Stmt.dml (insCompoundsF src (selectedIds src)) ::
              ((depFns src (selectedIds src)).map wrap ++ [Stmt.commit]))) from by
        simp [script, dataStmts, List.append_assoc, List.cons_append]] at h
      rw [execList_append_ok _ _ _ h1] at h
      rw [execList_append_ok _ _ _ h2] at h
      rw [show execList ⟨schemaDB src, refDB src (selectedIds src), true⟩
          (Stmt.dml (insCompoundsF src (selectedIds src)) ::
            ((depFns src (selectedIds src)).map wrap ++ [Stmt.commit])) =
          (⟨schemaDB src, refDB src (selectedIds src), true⟩, false) from by
        simp [execList, h3]] at h
      simp at h

/-- Behavior of main when the source file is missing. -/
theorem run_missing (fs : FS) (h : fs.sourceExists = false) :
    run fs = (fs, Outcome.missingSource) := by
  simp [run, h]

/-- Behavior of main when the selection is empty. -/
theorem run_empty (fs : FS) (h1 : fs.sourceExists = true)
    (h2 : selectedIds fs.source = []) :
    run fs = ({ fs with dest := some emptyDB }, Outcome.emptySelection) := by
  simp [run, h1, h2]

/-- A run that exits with outcome ok leaves the extracted content in the
destination file, and its strict compounds insert succeeded on a nonempty
selection. -/
theorem run_ok_char (fs : FS) (h : (run fs).2 = Outcome.ok) :
    (run fs).1.dest = some (extractDB fs.source) ∧ insertOk fs.source = true ∧
      fs.sourceExists = true ∧ selectedIds fs.source ≠ [] := by
  by_cases h1 : fs.sourceExists = true
  · by_cases h2 : selectedIds fs.source = []
    · rw [run_empty fs h1 h2] at h
      simp at h
    · by_cases h3 : (execList initConn (script fs.source)).2 = true
      · have hio := exec_flag_insertOk fs.source h3
        have hs := script_exec fs.source hio
        refine ⟨?_, hio, h1, h2⟩
        simp [run, h1, h2, hs]
      · have h3' : (execList initConn (script fs.source)).2 = false := by
          simpa using h3
        simp [run, h1, h2, h3'] at h
  · have h1' : fs.sourceExists = false := by simpa using h1
    rw [run_missing fs h1'] at h
    simp at h

/-- A run that exits with outcome failed leaves in the destination file the
content that was committed when the failing statement was reached. -/
theorem run_failed_char (fs : FS) (h : (run fs).2 = Outcome.failed) :
    (run fs).1.dest = some (execList initConn (script fs.source)).1.committed ∧
      (execList initConn (script fs.source)).2 = false := by
  by_cases h1 : fs.sourceExists = true
  · by_cases h2 : selectedIds fs.source = []
    · rw [run_empty fs h1 h2] at h
      simp at h
    · by_cases h3 : (execList initConn (script fs.source)).2 = true
      · simp [run, h1, h2, h3] at h
      · have h3' : (execList initConn (script fs.source)).2 = false := by
          simpa using h3
        refine ⟨?_, h3'⟩
        simp [run, h1, h2, h3']
  · have h1' : fs.sourceExists = false := by simpa using h1
    rw [run_missing fs h1'] at h
    simp at h

/-- The script is its commit-free body followed by the single commit. -/
theorem script_split (src : SourceDB) :
    script src = scriptBody src ++ [Stmt.commit] :=
  rfl

/-- No statement of the script body is a commit. -/
theorem scriptBody_no_commit (src : SourceDB) :
    ∀ s ∈ scriptBody src, isCommit s = false := by
  intro s hs
  rcases List.mem_append.mp hs with h1 | h2
  · obtain ⟨x, _, rfl⟩ := List.mem_map.mp h1
    rfl
  · simp only [dataStmts] at h2
    rcases List.mem_append.mp h2 with h3 | h4
    · obtain ⟨g, _, rfl⟩ := List.mem_map.mp h3
      rfl
    · rcases List.mem_cons.mp h4 with rfl | h5
      · rfl
      · obtain ⟨g, _, rfl⟩ := List.mem_map.mp h5
        rfl

/-- Executing statements that never commit leaves the committed data tables
empty whenever they started empty: DML only touches the pending content and
DDL only touches the schema. -/
theorem committed_empty_invariant (l : List Stmt) :
    ∀ c : Conn, (∀ s ∈ l, isCommit s = false) →
      dataTablesEmpty c.committed = true →
      (c.inTxn = false → dataTablesEmpty c.pending = true) →
      dataTablesEmpty (execList c l).1.committed = true := by
  induction l with
  | nil =>
      intro c _ hc _
      simpa [execList] using hc
  | cons s rest ih =>
      intro c hl hc hp
      have hs := hl s (List.mem_cons_self s rest)
      have hrest : ∀ t ∈ rest, isCommit t = false := fun t ht =>
        hl t (List.mem_cons_of_mem s ht)
      cases s with
      | ddl sql =>
          simp only [execList, execStmt]
          by_cases ht : c.inTxn = true
          · rw [if_pos ht]
            exact ih ⟨c.committed, appendDdl sql c.pending, true⟩ hrest hc (by simp)
          · rw [if_neg ht]
            have ht' : c.inTxn = false := by simpa using ht
            have hpe := hp ht'
            have hde : dataTablesEmpty (appendDdl sql c.pending) = true := hpe
            exact ih ⟨appendDdl sql c.pending, appendDdl sql c.pending, false⟩ hrest hde
              (fun _ => hde)
      | dml f =>
          simp only [execList, execStmt]
          cases hf : f c.pending with
          | some d =>
              exact ih ⟨c.committed, d, true⟩ hrest hc (by simp)
          | none =>
              simpa using hc
      | commit =>
          simp [isCommit] at hs

/-- Stopping the script anywhere before its final statement leaves a
committed destination whose data tables are all empty. -/
theorem committed_empty_prefix (src : SourceDB) (k : Nat)
    (hk : k < (script src).length) :
    dataTablesEmpty ((execList initConn ((script src).take k)).1.committed) = true := by
  have hlen : k ≤ (scriptBody src).length := by
    have hx : (script src).length = (scriptBody src).length + 1 := by
      rw [script_split]
      simp
    omega
  have htake : (script src).take k = (scriptBody src).take k := by
    rw [script_split]
    exact List.take_append_of_le_length hlen
  rw [htake]
  refine committed_empty_invariant _ initConn ?_ rfl (fun _ => rfl)
  intro s hs
  exact scriptBody_no_commit src s (List.mem_of_mem_take hs)

/-- A run that fails mid-script commits none of the copied rows: the
destination file content has empty data tables. -/
theorem run_failed_empty (fs : FS) (p : DB) (h : (run fs).2 = Outcome.failed)
    (hd : (run fs).1.dest = some p) : dataTablesEmpty p = true := by
  obtain ⟨hdest, hflag⟩ := run_failed_char fs h
  rw [hdest] at hd
  have hp : p = (execList initConn (script fs.source)).1.committed := by
    exact (Option.some.injEq _ _).mp hd.symm
  subst hp
  rcases hb : execList initConn (scriptBody fs.source) with ⟨cb, fl⟩
  cases fl with
  | true =>
      exfalso
      have := execList_append_ok (scriptBody fs.source) initConn cb hb [Stmt.commit]
      rw [script_split] at hflag
      rw [this] at hflag
      simp [execList, execStmt] at hflag
  | false =>
      have := execList_append_fail (scriptBody fs.source) initConn cb hb [Stmt.commit]
      rw [script_split, this]
      have hres : (execList initConn (scriptBody fs.source)).1.committed =
          cb.committed := by rw [hb]
      have := committed_empty_invariant (scriptBody fs.source) initConn
        (scriptBody_no_commit fs.source) rfl (fun _ => rfl)
      rw [hb] at this
      exact this

/-- Membership in the selected id list. -/
theorem mem_selectedIds (src : SourceDB) (i : String) :
    i ∈ selectedIds src ↔
      ∃ c ∈ src.compounds, c.database_name = TARGET_DATABASE_NAME ∧ c.id = i := by
  constructor
  · intro h
    obtain ⟨c, hc, hid⟩ := List.mem_map.mp h
    have h2 := List.mem_filter.mp hc
    exact ⟨c, h2.1, by simpa using h2.2, hid⟩
  · rintro ⟨c, hc, hn, hid⟩
    exact List.mem_map.mpr ⟨c, List.mem_filter.mpr ⟨hc, by simpa using hn⟩, hid⟩

/-- Membership in the destination compounds table of a successful run. -/
theorem mem_extract_compounds (src : SourceDB) (c : Compound) :
    c ∈ (extractDB src).compounds ↔ c ∈ src.compounds ∧ c.id ∈ selectedIds src := by
  show c ∈ selCompounds src (selectedIds src) ↔ _
  rw [selCompounds, List.mem_filter]
  constructor
  · rintro ⟨h1, h2⟩
    exact ⟨h1, List.elem_iff.mp h2⟩
  · rintro ⟨h1, h2⟩
    exact ⟨h1, List.elem_iff.mpr h2⟩

/-- Every selected id is the id of some row of the destination compounds
table. -/
theorem exists_dest_compound (src : SourceDB) (i : String) (h : i ∈ selectedIds src) :
    ∃ c ∈ (extractDB src).compounds, c.id = i := by
  obtain ⟨c, hc, _, hid⟩ := (mem_selectedIds src i).mp h
  refine ⟨c, (mem_extract_compounds src c).mpr ⟨hc, ?_⟩, hid⟩
  rw [hid]
  exact h

/-- Rows present in an accumulator stay present through the loop over
distinct database ids. -/
theorem mem_foldl_spectraIdStep (src : SourceDB) (ds : List String) :
    ∀ (acc : List SpectraDatabase) (x : SpectraDatabase),
      x ∈ acc → x ∈ ds.foldl (spectraIdStep src) acc := by
  induction ds with
  | nil => intro acc x hx; simpa using hx
  | cons a rest ih =>
      intro acc x hx
      rw [List.foldl_cons]
      exact ih _ x (mem_insertOrIgnoreBy_of_mem _ _ _ x hx)

/-- If a database id occurs in the loop list and some source
spectra_databases row carries it, the loop leaves a row with that id in the
destination table. -/
theorem spectraFold_mem_of (src : SourceDB) (ds : List String) :
    ∀ (acc : List SpectraDatabase) (did : String), did ∈ ds →
      (∃ s ∈ src.spectra_databases, s.id = did) →
      ∃ x ∈ ds.foldl (spectraIdStep src) acc, x.id = did := by
  induction ds with
  | nil => intro acc did h; cases h
  | cons a rest ih =>
      intro acc did hmem hs
      rw [List.foldl_cons]
      rcases List.mem_cons.mp hmem with rfl | h2
      · obtain ⟨s0, hs0, hid0⟩ := hs
        have hfilter : s0 ∈ src.spectra_databases.filter (fun s => s.id == did) := by
          rw [List.mem_filter]
          exact ⟨hs0, by simp [hid0]⟩
        obtain ⟨x, hx, hxid⟩ := exists_key_insertOrIgnoreBy (fun s => s.id)
          (src.spectra_databases.filter (fun s => s.id == did)) acc s0 hfilter
        refine ⟨x, mem_foldl_spectraIdStep src rest _ x hx, ?_⟩
        rw [hxid, hid0]
      · exact ih (spectraIdStep src acc a) did h2 hs

/-- C1: after a successful run, the set of compound ids in the destination
compounds table equals exactly the set of ids of source compounds rows
whose database_name equals the configured selection name "Common
Compounds" — no extra rows and none missing. -/
theorem claim_C1_selection_correctness (fs : FS) (p : DB)
    (hok : (run fs).2 = Outcome.ok) (hd : (run fs).1.dest = some p) (i : String) :
    (∃ c ∈ p.compounds, c.id = i) ↔
      (∃ c ∈ fs.source.compounds,
        c.database_name = TARGET_DATABASE_NAME ∧ c.id = i) := by
  obtain ⟨hdest, _, _, _⟩ := run_ok_char fs hok
  rw [hdest] at hd
  have hp : extractDB fs.source = p := Option.some.inj hd
  subst hp
  constructor
  · rintro ⟨c, hc, rfl⟩
    obtain ⟨_, hid⟩ := (mem_extract_compounds _ _).mp hc
    obtain ⟨c2, h1, h2, h3⟩ := (mem_selectedIds _ _).mp hid
    exact ⟨c2, h1, h2, h3⟩
  · rintro ⟨c, hc, hn, rfl⟩
    have hid : c.id ∈ selectedIds fs.source :=
      (mem_selectedIds _ _).mpr ⟨c, hc, hn, rfl⟩
    exact exists_dest_compound fs.source c.id hid

/-- C1 witness: the theorem instantiated at the concrete source. -/
theorem claim_C1_witness :
    (∃ c ∈ (extractDB srcW).compounds, c.id = "c1") ↔
      (∃ c ∈ fsW.source.compounds,
        c.database_name = TARGET_DATABASE_NAME ∧ c.id = "c1") :=
  claim_C1_selection_correctness fsW (extractDB srcW) (by decide) (by decide) "c1"

/-- C2: for every row copied into any of the six compound-keyed dependent
tables, its compound_id exists in the destination compounds table — the
destination contains no orphan dependent rows. -/
theorem claim_C2_no_orphans (fs : FS) (p : DB)
    (hok : (run fs).2 = Outcome.ok) (hd : (run fs).1.dest = some p) :
    (∀ r ∈ p.compounds_absorptions, ∃ c ∈ p.compounds, c.id = r.compound_id) ∧
    (∀ r ∈ p.compounds_emissions, ∃ c ∈ p.compounds, c.id = r.compound_id) ∧
    (∀ r ∈ p.compound_absorption_normalized_status,
      ∃ c ∈ p.compounds, c.id = r.compound_id) ∧
    (∀ r ∈ p.compound_emission_normalized_status,
      ∃ c ∈ p.compounds, c.id = r.compound_id) ∧
    (∀ r ∈ p.compounds_absorptions_backup, ∃ c ∈ p.compounds, c.id = r.compound_id) ∧
    (∀ r ∈ p.compounds_emissions_backup, ∃ c ∈ p.compounds, c.id = r.compound_id) := by
  obtain ⟨hdest, _, _, _⟩ := run_ok_char fs hok
  rw [hdest] at hd
  have hp : extractDB fs.source = p := Option.some.inj hd
  subst hp
  have key : ∀ l : List DepRow,
      ∀ r ∈ l.filter (fun r => (selectedIds fs.source).contains r.compound_id),
        ∃ c ∈ (extractDB fs.source).compounds, c.id = r.compound_id := by
    intro l r hr
    have h2 := List.mem_filter.mp hr
    exact exists_dest_compound _ _ (List.elem_iff.mp h2.2)
  exact ⟨key _, key _, key _, key _, key _, key _⟩

/-- C2 witness: the theorem instantiated at the concrete source and at the
concrete absorption row of the selected compound. -/
theorem claim_C2_witness :
    ∃ c ∈ (extractDB srcW).compounds, c.id = (DepRow.mk "c1" "a").compound_id :=
  (claim_C2_no_orphans fsW (extractDB srcW) (by decide) (by decide)).1
    (DepRow.mk "c1" "a") (by decide)

/-- C3: for each of the six dependent tables, the destination contains
exactly those source rows whose compound_id is in the selected id set. -/
theorem claim_C3_dependent_exact (fs : FS) (p : DB)
    (hok : (run fs).2 = Outcome.ok) (hd : (run fs).1.dest = some p) :
    p.compounds_absorptions = fs.source.compounds_absorptions.filter
      (fun r => (selectedIds fs.source).contains r.compound_id) ∧
    p.compounds_emissions = fs.source.compounds_emissions.filter
      (fun r => (selectedIds fs.source).contains r.compound_id) ∧
    p.compound_absorption_normalized_status =
      fs.source.compound_absorption_normalized_status.filter
        (fun r => (selectedIds fs.source).contains r.compound_id) ∧
    p.compound_emission_normalized_status =
      fs.source.compound_emission_normalized_status.filter
        (fun r => (selectedIds fs.source).contains r.compound_id) ∧
    p.compounds_absorptions_backup = fs.source.compounds_absorptions_backup.filter
      (fun r => (selectedIds fs.source).contains r.compound_id) ∧
    p.compounds_emissions_backup = fs.source.compounds_emissions_backup.filter
      (fun r => (selectedIds fs.source).contains r.compound_id) := by
  obtain ⟨hdest, _, _, _⟩ := run_ok_char fs hok
  rw [hdest] at hd
  have hp : extractDB fs.source = p := Option.some.inj hd
  subst hp
  exact ⟨rfl, rfl, rfl, rfl, rfl, rfl⟩

/-- C3 witness: the theorem instantiated at the concrete source. -/
theorem claim_C3_witness :
    (extractDB srcW).compounds_absorptions = srcW.compounds_absorptions.filter
      (fun r => (selectedIds srcW).contains r.compound_id) :=
  (claim_C3_dependent_exact fsW (extractDB srcW) (by decide) (by decide)).1

/-- C5: after a successful run, the destination solar_spectra table contains
exactly the same rows as the source solar_spectra table; the hypothesis on
the keys states that the source table satisfies its own primary-key
constraint. -/
theorem claim_C5_solar_full_copy (fs : FS) (p : DB)
    (hok : (run fs).2 = Outcome.ok) (hd : (run fs).1.dest = some p)
    (hkeys : (fs.source.solar_spectra.map (fun r => r.key)).Nodup) :
    p.solar_spectra = fs.source.solar_spectra := by
  obtain ⟨hdest, _, _, _⟩ := run_ok_char fs hok
  rw [hdest] at hd
  have hp : extractDB fs.source = p := Option.some.inj hd
  subst hp
  show insertOrIgnoreBy (fun r => r.key) [] fs.source.solar_spectra = _
  rw [insertOrIgnoreBy_of_nodup (fun r => r.key) fs.source.solar_spectra [] hkeys
    (by simp)]
  simp

/-- C5 witness: the theorem instantiated at the concrete source. -/
theorem claim_C5_witness : (extractDB srcW).solar_spectra = srcW.solar_spectra :=
  claim_C5_solar_full_copy fsW (extractDB srcW) (by decide) (by decide) (by decide)

/-- C4 counterexample: a successful run on a source whose selected compound
references a category id absent from the source leaves a destination
compounds row with non-null category_id and an empty destination
common_compound_categories table, refuting the claim as stated. -/
theorem claim_C4_counterexample :
    (run fsC).2 = Outcome.ok ∧
    (run fsC).1.dest = some (extractDB srcC) ∧
    (∃ c ∈ (extractDB srcC).compounds, c.category_id = some "k1") ∧
    (extractDB srcC).common_compound_categories = [] := by
  decide

/-- C4 amended: the reference-completeness claim holds for every destination
compounds row whose non-null category_id (resp. database_id) refers to a
row that exists in the source common_compound_categories
(resp. spectra_databases) table, the hypothesis being source referential
integrity for the selected compounds. -/
theorem claim_C4_reference_completeness (fs : FS) (p : DB)
    (hok : (run fs).2 = Outcome.ok) (hd : (run fs).1.dest = some p)
    (hcat : ∀ c ∈ fs.source.compounds, c.database_name = TARGET_DATABASE_NAME →
      ∀ cid, c.category_id = some cid →
        ∃ k ∈ fs.source.common_compound_categories, k.id = cid)
    (hdb : ∀ c ∈ fs.source.compounds, c.database_name = TARGET_DATABASE_NAME →
      ∀ did, c.database_id = some did →
        ∃ s ∈ fs.source.spectra_databases, s.id = did) :
    (∀ c ∈ p.compounds, ∀ cid, c.category_id = some cid →
      ∃ k ∈ p.common_compound_categories, k.id = cid) ∧
    (∀ c ∈ p.compounds, ∀ did, c.database_id = some did →
      ∃ s ∈ p.spectra_databases, s.id = did) := by
  obtain ⟨hdest, hio, _, _⟩ := run_ok_char fs hok
  rw [hdest] at hd
  have hp : extractDB fs.source = p := Option.some.inj hd
  subst hp
  have hnd : ((selCompounds fs.source (selectedIds fs.source)).map
      (fun c => c.id)).Nodup := by
    obtain ⟨l, hl⟩ := Option.isSome_iff_exists.mp hio
    exact (strictInsertBy_sound (fun c => c.id) _ [] l hl).1
  have hsel : ∀ c ∈ (extractDB fs.source).compounds,
      c.database_name = TARGET_DATABASE_NAME := by
    intro c hc
    obtain ⟨hcs, hcid⟩ := (mem_extract_compounds _ _).mp hc
    obtain ⟨c2, hc2, hn2, hid2⟩ := (mem_selectedIds _ _).mp hcid
    have hc2mem : c2 ∈ selCompounds fs.source (selectedIds fs.source) := by
      rw [selCompounds, List.mem_filter]
      refine ⟨hc2, List.elem_iff.mpr ?_⟩
      rw [hid2]
      exact hcid
    have hcmem : c ∈ selCompounds fs.source (selectedIds fs.source) := hc
    have heq : c = c2 :=
      List.inj_on_of_nodup_map hnd hcmem hc2mem (by rw [hid2])
    rw [heq]
    exact hn2
  constructor
  · intro c hc cid hcid
    have hname := hsel c hc
    obtain ⟨hcs, hcidmem⟩ := (mem_extract_compounds _ _).mp hc
    obtain ⟨k, hk, hkid⟩ := hcat c hcs hname cid hcid
    have hkJ : k ∈ catJoin fs.source (selectedIds fs.source) := by
      rw [catJoin, List.mem_dedup, List.mem_filter]
      refine ⟨hk, ?_⟩
      rw [List.any_eq_true]
      refine ⟨c, hcs, ?_⟩
      simp [hcid, hkid]
      exact hcidmem
    obtain ⟨x, hx, hxid⟩ := exists_key_insertOrIgnoreBy (fun k => k.id)
      (catJoin fs.source (selectedIds fs.source)) [] k hkJ
    exact ⟨x, hx, by rw [hxid, hkid]⟩
  · intro c hc did hdid
    have hname := hsel c hc
    obtain ⟨hcs, hcidmem⟩ := (mem_extract_compounds _ _).mp hc
    have hdmem : did ∈ dids fs.source := by
      rw [dids, List.mem_dedup, List.mem_filterMap]
      refine ⟨c, ?_, hdid⟩
      rw [List.mem_filter]
      exact ⟨hcs, by simp [hname, hdid]⟩
    obtain ⟨s0, hs0, hs0id⟩ := hdb c hcs hname did hdid
    exact spectraFold_mem_of fs.source (dids fs.source) _ did hdmem ⟨s0, hs0, hs0id⟩

/-- C4 witness: the amended theorem instantiated at the concrete source,
whose selected compound's category and database references both resolve,
and at that compound's category reference. -/
theorem claim_C4_witness :
    ∃ k ∈ (extractDB srcW).common_compound_categories, k.id = "k1" := by
  refine (claim_C4_reference_completeness fsW (extractDB srcW)
    (by decide) (by decide) ?_ ?_).1
    ⟨"c1", "Common Compounds", some "d1", some "k1", "x"⟩ (by decide) "k1" (by decide)
  · intro c hc hname cid hcid
    fin_cases hc
    · exact ⟨⟨"k1", "cat"⟩, by decide,
        by cases hcid; rfl⟩
    · exact absurd hname (by decide)
  · intro c hc hname did hdid
    fin_cases hc
    · exact ⟨⟨"d1", "Common Compounds", "sd"⟩, by decide,
        by cases hdid; rfl⟩
    · exact absurd hname (by decide)

/-- C6: if the source database file does not exist, the run halts
immediately with the benign missing-source outcome, the filesystem state is
unchanged, and in particular no destination file is created and no
pre-existing destination file is deleted. -/
theorem claim_C6_missing_source (fs : FS) (h : fs.sourceExists = false) :
    run fs = (fs, Outcome.missingSource) ∧ (run fs).1.dest = fs.dest := by
  have hr := run_missing fs h
  exact ⟨hr, by rw [hr]⟩

/-- C6 witness: the theorem instantiated at a state with an absent source
and a pre-existing destination file. -/
theorem claim_C6_witness :
    run fsM = (fsM, Outcome.missingSource) ∧ (run fsM).1.dest = fsM.dest :=
  claim_C6_missing_source fsM (by decide)

/-- C7: if the source contains zero compounds with the selection name, the
run exits with the benign empty-selection outcome; the destination is the
freshly created empty store (any pre-existing destination file having been
replaced), with no schema applied and no data. -/
theorem claim_C7_empty_selection (fs : FS) (h1 : fs.sourceExists = true)
    (h2 : selectedIds fs.source = []) :
    run fs = ({ fs with dest := some emptyDB }, Outcome.emptySelection) ∧
      emptyDB.ddlApplied = [] ∧ dataTablesEmpty emptyDB = true :=
  ⟨run_empty fs h1 h2, rfl, rfl⟩

/-- C7 witness: the theorem instantiated at a state with an empty selection
and a pre-existing nonempty destination file. -/
theorem claim_C7_witness :
    run fsE = ({ fsE with dest := some emptyDB }, Outcome.emptySelection) ∧
      emptyDB.ddlApplied = [] ∧ dataTablesEmpty emptyDB = true :=
  claim_C7_empty_selection fsE (by decide) (by decide)

/-- C8: the script contains exactly one commit statement, placed last, after
every data-copy statement; stopping execution anywhere before it — and in
particular any mid-run data-copy failure — leaves a destination file whose
data tables are all empty, so no copied row is ever committed early. -/
theorem claim_C8_single_transaction (src : SourceDB) (fs : FS) :
    (script src).filter isCommit = [Stmt.commit] ∧
    (script src).getLast? = some Stmt.commit ∧
    (∀ k, k < (script src).length →
      dataTablesEmpty ((execList initConn ((script src).take k)).1.committed) = true) ∧
    (∀ p, (run fs).2 = Outcome.failed → (run fs).1.dest = some p →
      dataTablesEmpty p = true) := by
  refine ⟨?_, ?_, committed_empty_prefix src,
    fun p h hd => run_failed_empty fs p h hd⟩
  · rw [script_split, List.filter_append]
    rw [List.filter_eq_nil_iff.mpr (fun s hs => by
      simp [scriptBody_no_commit src s hs])]
    simp [isCommit]
  · rw [script_split]
    exact List.getLast?_concat _

/-- C8 witness: the theorem instantiated at the concrete sources; the failed
run at the conflicting source commits an empty destination. -/
theorem claim_C8_witness :
    0 < (script srcW).length ∧
    dataTablesEmpty ((execList initConn ((script srcW).take 0)).1.committed) = true ∧
    dataTablesEmpty emptyDB = true := by
  refine ⟨by decide, (claim_C8_single_transaction srcW fsF).2.2.1 0 (by decide),
    (claim_C8_single_transaction srcW fsF).2.2.2 emptyDB (by decide) (by decide)⟩

/-- C9: running the extraction twice in a row against an unchanged source is
idempotent: the second run produces exactly the same filesystem state and
outcome as the first, hence destination stores with identical schema and
identical row counts per table. -/
theorem claim_C9_idempotent (fs : FS) : run ((run fs).1) = run fs := by
  by_cases h1 : fs.sourceExists = true
  · by_cases h2 : selectedIds fs.source = []
    · simp [run, h1, h2]
    · by_cases h3 : (execList initConn (script fs.source)).2 = true
      · simp [run, h1, h2, h3]
      · have h3' : (execList initConn (script fs.source)).2 = false := by
          simpa using h3
        simp [run, h1, h2, h3']
  · have h1' : fs.sourceExists = false := by simpa using h1
    simp [run, h1']

/-- C10: no run modifies the source database: the statements of the
embedding read the source only as an input and write only the destination
value, so the source content and its presence are unchanged by every run. -/
theorem claim_C10_source_unchanged (fs : FS) :
    (run fs).1.source = fs.source ∧ (run fs).1.sourceExists = fs.sourceExists := by
  by_cases h1 : fs.sourceExists = true
  · by_cases h2 : selectedIds fs.source = []
    · simp [run, h1, h2]
    · by_cases h3 : (execList initConn (script fs.source)).2 = true
      · simp [run, h1, h2, h3]
      · have h3' : (execList initConn (script fs.source)).2 = false := by
          simpa using h3
        simp [run, h1, h2, h3']
  · have h1' : fs.sourceExists = false := by simpa using h1
    simp [run, h1']
